import Mathlib

/-!
Shallow embedding of the program-detail aggregation endpoint
(`api/clinical-programs.ts`) of the crxq repository, together with proofs
of the behavioural properties stated in its specification.

Strings are modelled as lists of characters.  JavaScript truthiness on
strings (empty string is falsy) and on optional values is modelled
explicitly at each use site, mirroring the source expressions.
-/

namespace Crxq

/-- Character strings of the embedded program. -/
abbrev Str := List Char

/-- Whitespace class used by the JavaScript regular-expression class and by
String.prototype.trim: ASCII whitespace together with the Unicode space
code points, NBSP and the BOM. -/
def isJsWS (c : Char) : Bool :=
  c = ' ' || c = '\t' || c = '\n' || c = '\r' || c = '\x0b' || c = '\x0c' ||
  c = '\u00A0' || c = '\u1680' || ('\u2000' ≤ c && c ≤ '\u200A') ||
  c = '\u2028' || c = '\u2029' || c = '\u202F' || c = '\u205F' ||
  c = '\u3000' || c = '\uFEFF'

/-- JavaScript String.prototype.trim: strip leading and trailing whitespace. -/
def jsTrim (l : Str) : Str :=
  List.rdropWhile isJsWS (List.dropWhile isJsWS l)

/-- Length of the maximal run of whitespace characters at the head of a string
(the greedy extent of a `\s*` sub-match). -/
def wsRun : Str → Nat
  | [] => 0
  | c :: r => if isJsWS c then wsRun r + 1 else 0

/-- Search downward from index `k` for the largest index at which the string
holds a newline; this is the backtracking of a greedy `\s*` that must be
followed by a newline. -/
def findNlDown (l : Str) : Nat → Option Nat
  | 0 => if l.get? 0 = some '\n' then some 0 else none
  | k + 1 => if l.get? (k + 1) = some '\n' then some (k + 1) else findNlDown l k

/-- Leftmost-alternative match, at the head of the string, of the separator
regular expression used at `api/clinical-programs.ts:111`,
with alternatives tried in source order (newline, greedy whitespace,
newline / CRLF CRLF / newline) and greedy backtracking inside the first
alternative.  Returns the length of the match. -/
def sepMatch : Str → Option Nat
  | '\n' :: rest =>
    (match findNlDown rest (wsRun rest) with
     | some k => some (k + 2)
     | none => some 1)
  | '\r' :: '\n' :: '\r' :: '\n' :: _ => some 4
  | _ => none

/-- Splitting loop of JavaScript String.prototype.split with the separator
regular expression above: scan left to right, cut at every match, keep the
pieces (possibly empty) between matches.  The fuel argument is bounded by the
input length (every step consumes at least one character, as each separator
match has length at least one); the zero-fuel branch with a non-empty
remainder is unreachable. -/
def jsSplitFuel : Nat → Str → Str → List Str
  | _, [], acc => [acc.reverse]
  | 0, cs, acc => [acc.reverse ++ cs]
  | fuel + 1, c :: rest, acc =>
    match sepMatch (c :: rest) with
    | some n => acc.reverse :: jsSplitFuel fuel (rest.drop (n - 1)) []
    | none => jsSplitFuel fuel rest (c :: acc)

/-- JavaScript split of a string by the separator regular expression of the
overview segmentation. -/
def jsSplit (raw : Str) : List Str :=
  jsSplitFuel raw.length raw []

/-- Overview segmentation, `api/clinical-programs.ts:109-114`: a falsy
(empty) overview yields the empty sequence; otherwise split, trim each piece
and drop the falsy (empty) pieces. -/
def segment (raw : Str) : List Str :=
  if raw.isEmpty then []
  else ((jsSplit raw).map jsTrim).filter (fun p => !p.isEmpty)

/-- Minimal attachment object, `api/clinical-programs.ts:7-10`; the url
property may be missing at runtime. -/
structure Attachment where
  url : Option Str
deriving DecidableEq

/-- Runtime value stored in an attachment-typed field, seen as `unknown` by
`firstAttachmentUrl`: undefined, null, an array of attachment objects, or
any other primitive or object value (of which only truthiness matters). -/
inductive AttVal where
  | undef
  | nullV
  | arr (l : List Attachment)
  | prim (truthy : Bool)
deriving DecidableEq

/-- JavaScript falsiness of an attachment-field value (arrays are always
truthy). -/
def attFalsy : AttVal → Bool
  | .undef => true
  | .nullV => true
  | .prim t => !t
  | .arr _ => false

/-- First attachment URL, `api/clinical-programs.ts:15-19`:
`const list = attachments || []` followed by
`if (Array.isArray(list) && list.length > 0 && list[0]?.url) return list[0].url`.
The truthiness test on `list[0]?.url` rejects a missing url and the empty
string. -/
def firstAttachmentUrl (attachments : AttVal) : Option Str :=
  match (if attFalsy attachments then AttVal.arr [] else attachments) with
  | .arr (a :: _) =>
    (match a.url with
     | some u => if u.isEmpty then none else some u
     | none => none)
  | _ => none

/-- Runtime value stored in a link-typed field: absent, a string (possibly
empty), or a value of any other type. -/
inductive FieldVal where
  | absent
  | str (s : Str)
  | other
deriving DecidableEq

/-- The conditional the conditional (typeof v === string) yielding v, else undefined. -/
def strOrUndef : FieldVal → Option Str
  | .str s => some s
  | _ => none

/-- JavaScript `a || b` on optional strings: `a` is kept unless it is
nullish or the empty string. -/
def jsOrOpt (a b : Option Str) : Option Str :=
  match a with
  | some s => if s.isEmpty then b else some s
  | none => b

/-- JavaScript `(x as string) || ''` on an optional string field. -/
def jsOrEmpty (a : Option Str) : Str :=
  match a with
  | some s => if s.isEmpty then [] else s
  | none => []

/-- JavaScript `(x as string) || undefined` on an optional string field. -/
def jsOrUndef (a : Option Str) : Option Str :=
  match a with
  | some s => if s.isEmpty then none else some s
  | none => none

/-- URL resolution chain used for every child record,
`api/clinical-programs.ts:161-164`:
link-if-string, else first attachment url, else undefined. -/
def resolveUrl (link : FieldVal) (file : AttVal) : Option Str :=
  jsOrOpt (jsOrOpt (strOrUndef link) (firstAttachmentUrl file)) none

/-- Whether the link field holds a non-empty string (the only case in which
the first step of the resolution chain is truthy). -/
def linkNonEmptyStr : FieldVal → Bool
  | .str s => !s.isEmpty
  | _ => false

/-- Whether the attachment field holds a non-empty array. -/
def hasAttachment : AttVal → Bool
  | .arr (_ :: _) => true
  | _ => false

/-- Whether the attachment field holds an array at all. -/
def isArr : AttVal → Bool
  | .arr _ => true
  | _ => false

/-- Truthiness of an optional url string. -/
def truthyUrl : Option Str → Bool
  | some s => !s.isEmpty
  | none => false

/-- Escaping for filterByFormula single-quoted literals,
`api/clinical-programs.ts:35-37`: every single quote is doubled. -/
def escapeFormulaString : Str → Str
  | [] => []
  | c :: r =>
    if c = '\'' then '\'' :: '\'' :: escapeFormulaString r
    else c :: escapeFormulaString r

/-- Leading text of the parent-lookup formula
slugfield = literal built at `api/clinical-programs.ts:91`,
up to but excluding the opening quote. -/
def eqFormulaHead : Str := "\x7bprogramSlug\x7d = ".data

/-- The parent-lookup formula built from the already-escaped slug. -/
def parentFormula (esc : Str) : Str :=
  eqFormulaHead ++ '\'' :: (esc ++ ['\''])

/-- Trailing text of the child-lookup formula literal IN slugfield
built at `api/clinical-programs.ts:120`, after the closing quote. -/
def childFormulaTail : Str := " IN \x7bprogramSlug\x7d".data

/-- The child-lookup formula built from the already-escaped slug. -/
def childFormula (esc : Str) : Str :=
  '\'' :: (esc ++ '\'' :: childFormulaTail)

/-- Remove an expected leading text from a string, or fail. -/
def stripHead : Str → Str → Option Str
  | [], l => some l
  | _ :: _, [] => none
  | p :: ps, c :: cs => if c = p then stripHead ps cs else none

/-- Modelled from the spec: the store side of the query language is not part
of the repository, and the specification fixes its string-literal syntax as
single-quoted literals in which a literal quote is written as two quotes
(doubled-quote escaping).  `parseLit` consumes the body of such a literal
after its opening quote and returns the denoted value together with the
remainder after the closing quote; an unterminated literal fails. -/
def parseLit : Str → Option (Str × Str)
  | [] => none
  | c :: rest =>
    if c = '\'' then
      match rest with
      | r :: rest2 =>
        if r = '\'' then (parseLit rest2).map (fun vr => ('\'' :: vr.1, vr.2))
        else some ([], rest)
      | [] => some ([], [])
    else
      (parseLit rest).map (fun vr => (c :: vr.1, vr.2))

/-- Modelled from the spec: store-side reading of the parent-lookup formula.
It recognises exactly one equality comparison of the slug field against one
string literal spanning the whole rest of the formula, and returns the
compared value; anything else (a formula whose literal terminates early,
leaving trailing material) is rejected. -/
def parseEqFormula (f : Str) : Option Str :=
  match stripHead (eqFormulaHead ++ ['\'']) f with
  | some body =>
    (match parseLit body with
     | some vr => if vr.2.isEmpty then some vr.1 else none
     | none => none)
  | none => none

/-- Modelled from the spec: store-side reading of the child-lookup
(list-membership) formula.  It recognises exactly one string literal followed
by the membership test against the slug list field, and returns the tested
value. -/
def parseInFormula : Str → Option Str
  | q :: body =>
    if q = '\'' then
      match parseLit body with
      | some vr => if vr.2 = childFormulaTail then some vr.1 else none
      | none => none
    else none
  | [] => none

/-- Parent-table record of the ClinicalPrograms table; every projected field
may be missing. -/
structure ProgRec where
  id : Str
  programName : Option Str
  programDescription : Option Str
  programSlug : Option Str
  programOverview : Option Str
deriving DecidableEq

/-- Child record of the TrainingModules table.  The programSlug field is the
list-valued link field holding the slugs of the associated programs. -/
structure ModRec where
  id : Str
  moduleName : Option Str
  moduleLength : Option Str
  moduleFile : AttVal
  moduleLink : FieldVal
  sortOrder : Int
  programSlug : List Str
deriving DecidableEq

/-- Child record of the ProtocolManuals table. -/
structure ManRec where
  id : Str
  protocolName : Option Str
  protocolFile : AttVal
  fileLink : FieldVal
  programSlug : List Str
deriving DecidableEq

/-- Child record of the DocumentationForms table. -/
structure FormRec where
  id : Str
  formName : Option Str
  formFile : AttVal
  formCategory : Option Str
  formLink : FieldVal
  programSlug : List Str
deriving DecidableEq

/-- Child record of the AdditionalResources table. -/
structure ResRec where
  id : Str
  resourceName : Option Str
  resourceFile : AttVal
  resourceLink : FieldVal
  programSlug : List Str
deriving DecidableEq

/-- The five store tables addressed by the handler. -/
inductive Table where
  | clinicalPrograms
  | trainingModules
  | protocolManuals
  | documentationForms
  | additionalResources
deriving DecidableEq

/-- The external record store: the rows of each table, together with an
injected upstream failure per table (a store or network error carrying the
message of the store, to be raised when that table is queried). -/
structure Store where
  programs : List ProgRec
  trainingModules : List ModRec
  protocolManuals : List ManRec
  documentationForms : List FormRec
  additionalResources : List ResRec
  fail : Table → Option Str

/-- Process environment: the two credentials read at
`api/clinical-programs.ts:48`. -/
structure Env where
  apiKey : Option Str
  baseId : Option Str

/-- Falsiness of an environment variable: missing, or the empty string. -/
def falsyEnv : Option Str → Bool
  | none => true
  | some s => s.isEmpty

/-- The configuration-specific error message of
`api/clinical-programs.ts:54`. -/
def configErrorMsg : Str :=
  "Airtable is not configured. Set AIRTABLE_API_KEY and AIRTABLE_BASE_ID in your Vercel project.".data

/-- Modelled from the spec: store-side evaluation of the parent lookup.  The
store reads the filterByFormula text; a formula recognised as a single
equality against one whole-formula literal selects the records whose slug
field (blank read as the empty string) equals the literal value; an
ill-formed formula selects nothing. -/
def runParentQuery (st : Store) (formula : Str) : List ProgRec :=
  match parseEqFormula formula with
  | some v => st.programs.filter (fun r => jsOrEmpty r.programSlug == v)
  | none => []

/-- Modelled from the spec: store-side evaluation of the list-membership
filter of a child lookup, on the list-valued slug field of one child
record. -/
def childMatches (formula : Str) (slugs : List Str) : Bool :=
  match parseInFormula formula with
  | some v => slugs.contains v
  | none => false

/-- Presentation order requested for TrainingModules: ascending sortOrder. -/
def modLE (a b : ModRec) : Prop := a.sortOrder ≤ b.sortOrder

instance : DecidableRel modLE := fun a b => Int.decLe a.sortOrder b.sortOrder

instance : IsTotal ModRec modLE := ⟨fun a b => Int.le_total a.sortOrder b.sortOrder⟩

instance : IsTrans ModRec modLE := ⟨fun _ _ _ hab hbc => le_trans hab hbc⟩

/-- Modelled from the spec: the TrainingModules fetch, with the requested
ascending stable sort on sortOrder applied by the store to the matching
records. -/
def moduleRecordsFor (st : Store) (esc : Str) : List ModRec :=
  List.insertionSort modLE
    (st.trainingModules.filter (fun m => childMatches (childFormula esc) m.programSlug))

/-- The ProtocolManuals fetch (store order). -/
def manualRecordsFor (st : Store) (esc : Str) : List ManRec :=
  st.protocolManuals.filter (fun m => childMatches (childFormula esc) m.programSlug)

/-- The DocumentationForms fetch (store order). -/
def formRecordsFor (st : Store) (esc : Str) : List FormRec :=
  st.documentationForms.filter (fun m => childMatches (childFormula esc) m.programSlug)

/-- The AdditionalResources fetch (store order). -/
def resourceRecordsFor (st : Store) (esc : Str) : List ResRec :=
  st.additionalResources.filter (fun m => childMatches (childFormula esc) m.programSlug)

/-- Listing item, `api/clinical-programs.ts:73-77`. -/
structure ListItem where
  slug : Str
  name : Str
  description : Str
deriving DecidableEq

/-- Module item of the detail response, `api/clinical-programs.ts:156-165`. -/
structure ModuleOut where
  id : Str
  name : Str
  duration : Option Str
  description : Option Str
  url : Option Str
deriving DecidableEq

/-- Manual item of the detail response, `api/clinical-programs.ts:166-173`. -/
structure ManualOut where
  id : Str
  name : Str
  fileUrl : Option Str
deriving DecidableEq

/-- Form item of the detail response, `api/clinical-programs.ts:174-182`. -/
structure FormOut where
  id : Str
  name : Str
  category : Option Str
  fileUrl : Option Str
deriving DecidableEq

/-- Resource item of the detail response, `api/clinical-programs.ts:183-191`. -/
structure ResourceOut where
  id : Str
  name : Str
  rtype : Option Str
  url : Option Str
deriving DecidableEq

/-- The aggregated detail object, `api/clinical-programs.ts:149-192`. -/
structure Detail where
  slug : Str
  title : Str
  subtitle : Str
  image : Option Str
  overview : List Str
  modules : List ModuleOut
  manuals : List ManualOut
  forms : List FormOut
  resources : List ResourceOut
deriving DecidableEq

/-- Response body: an error object, the listing items array, or the detail
object. -/
inductive Body where
  | errorMsg (msg : Str)
  | listing (items : List ListItem)
  | detail (d : Detail)
deriving DecidableEq

/-- HTTP response: status code, JSON body, and whether the public
cache-control hint is set. -/
structure Response where
  status : Nat
  body : Body
  cache : Bool
deriving DecidableEq

/-- Listing item built from a parent record, `api/clinical-programs.ts:73-77`. -/
def mkListItem (r : ProgRec) : ListItem :=
  ⟨jsOrEmpty r.programSlug, jsOrEmpty r.programName, jsOrEmpty r.programDescription⟩

/-- Module item built from a TrainingModules record. -/
def mkModule (m : ModRec) : ModuleOut :=
  ⟨m.id, jsOrEmpty m.moduleName, jsOrUndef m.moduleLength, none,
    resolveUrl m.moduleLink m.moduleFile⟩

/-- Manual item built from a ProtocolManuals record. -/
def mkManual (m : ManRec) : ManualOut :=
  ⟨m.id, jsOrEmpty m.protocolName, resolveUrl m.fileLink m.protocolFile⟩

/-- Form item built from a DocumentationForms record. -/
def mkForm (f : FormRec) : FormOut :=
  ⟨f.id, jsOrEmpty f.formName, jsOrUndef f.formCategory,
    resolveUrl f.formLink f.formFile⟩

/-- Resource item built from an AdditionalResources record. -/
def mkResource (r : ResRec) : ResourceOut :=
  ⟨r.id, jsOrEmpty r.resourceName, none, resolveUrl r.resourceLink r.resourceFile⟩

/-- The detail object assembled at `api/clinical-programs.ts:149-192` from the
trimmed slug, the escaped slug and the first matching parent record. -/
def mkDetail (st : Store) (slug esc : Str) (p : ProgRec) : Detail :=
  ⟨slug, jsOrEmpty p.programName, jsOrEmpty p.programDescription, none,
    segment (jsOrEmpty p.programOverview),
    (moduleRecordsFor st esc).map mkModule,
    (manualRecordsFor st esc).map mkManual,
    (formRecordsFor st esc).map mkForm,
    (resourceRecordsFor st esc).map mkResource⟩

/-- Store calls issued on the detail path once the parent was found: the
parent lookup followed by the four concurrently issued child fetches. -/
def childTablesTrace : List Table :=
  [Table.clinicalPrograms, Table.trainingModules, Table.protocolManuals,
   Table.documentationForms, Table.additionalResources]

/-- First injected failure among the four concurrently issued child fetches
(the rejection that settles the awaited combination). -/
def firstChildFail (st : Store) : Option Str :=
  match st.fail Table.trainingModules with
  | some e => some e
  | none =>
    match st.fail Table.protocolManuals with
    | some e => some e
    | none =>
      match st.fail Table.documentationForms with
      | some e => some e
      | none => st.fail Table.additionalResources

/-- The request handler of `api/clinical-programs.ts:39-205` before its
enclosing try/catch: result of the body (or the raised store error), paired
with the trace of store calls issued.  The slug query parameter is read as
`(query.slug || "").trim()`; an empty trimmed slug takes the listing path. -/
def handlerAux (env : Env) (method : Str) (slugParam : Option Str) (st : Store) :
    Except Str Response × List Table :=
  if method ≠ "GET".data then
    (Except.ok ⟨405, Body.errorMsg "Method Not Allowed".data, false⟩, [])
  else if falsyEnv env.apiKey || falsyEnv env.baseId then
    (Except.ok ⟨500, Body.errorMsg configErrorMsg, false⟩, [])
  else
    let slug := jsTrim (slugParam.getD [])
    if slug.isEmpty then
      match st.fail Table.clinicalPrograms with
      | some e => (Except.error e, [Table.clinicalPrograms])
      | none =>
        (Except.ok ⟨200, Body.listing (st.programs.map mkListItem), true⟩,
         [Table.clinicalPrograms])
    else
      match st.fail Table.clinicalPrograms with
      | some e => (Except.error e, [Table.clinicalPrograms])
      | none =>
        match (runParentQuery st (parentFormula (escapeFormulaString slug))).take 1 with
        | [] =>
          (Except.ok ⟨404, Body.errorMsg "Program not found".data, false⟩,
           [Table.clinicalPrograms])
        | p :: _ =>
          match firstChildFail st with
          | some e => (Except.error e, childTablesTrace)
          | none =>
            (Except.ok ⟨200, Body.detail (mkDetail st slug (escapeFormulaString slug) p), true⟩,
             childTablesTrace)

/-- The generic response of the catch block, `api/clinical-programs.ts:198-204`. -/
def internalErrorResp : Response :=
  ⟨500, Body.errorMsg "Internal Server Error".data, false⟩

/-- The full handler: the catch block collapses every raised store error to
the fixed generic 500 response. -/
def handler (env : Env) (method : Str) (slugParam : Option Str) (st : Store) : Response :=
  match (handlerAux env method slugParam st).1 with
  | Except.ok r => r
  | Except.error _ => internalErrorResp

/-- Trace of store calls issued while serving a request. -/
def handlerTrace (env : Env) (method : Str) (slugParam : Option Str) (st : Store) : List Table :=
  (handlerAux env method slugParam st).2

/-- Number of items of a listing response body (zero for other bodies). -/
def listingCount (r : Response) : Nat :=
  match r.body with
  | Body.listing items => items.length
  | _ => 0

/-- The detail object of a detail response body, when there is one. -/
def detailOf (r : Response) : Option Detail :=
  match r.body with
  | Body.detail d => some d
  | _ => none


/-- Environment with both credentials present. -/
def envOK : Env := ⟨some ['k'], some ['b']⟩

/-- Failure map of a fully healthy store. -/
def noFail : Table → Option Str := fun _ => none

/-- A parent record whose slug is the one-character string p. -/
def progP : ProgRec :=
  ⟨['r', '1'], some ['N'], some ['D'], some ['p'], some ('A' :: '\n' :: '\n' :: 'B' :: [])⟩

/-- Module record with sortOrder 2. -/
def modA : ModRec := ⟨['m', '1'], some ['A'], none, AttVal.undef, FieldVal.absent, 2, [['p']]⟩

/-- Module record with sortOrder 1 (ties with the next one). -/
def modB : ModRec := ⟨['m', '2'], some ['B'], none, AttVal.undef, FieldVal.absent, 1, [['p']]⟩

/-- Module record with sortOrder 1 (ties with the previous one). -/
def modC : ModRec := ⟨['m', '3'], some ['C'], none, AttVal.undef, FieldVal.absent, 1, [['p']]⟩

/-- Store holding one program and its three modules. -/
def storeP : Store := ⟨[progP], [modA, modB, modC], [], [], [], noFail⟩

/-- Store with no records at all. -/
def storeEmpty : Store := ⟨[], [], [], [], [], noFail⟩

/-- Store holding 51 program records. -/
def bigStore : Store :=
  ⟨List.replicate 51 ⟨['r'], none, none, none, none⟩, [], [], [], [], noFail⟩

/-- Store whose parent-table call fails with upstream message x. -/
def failStoreA : Store :=
  ⟨[], [], [], [], [], fun t => if t = Table.clinicalPrograms then some ['x'] else none⟩

/-- Store whose parent-table call fails with upstream message y. -/
def failStoreB : Store :=
  ⟨[], [], [], [], [], fun t => if t = Table.clinicalPrograms then some ['y'] else none⟩

/-! ### Helper lemmas -/

lemma stripHead_append (p r : Str) : stripHead p (p ++ r) = some r := by
  induction p with
  | nil => simp [stripHead]
  | cons c cs ih => simp [stripHead, ih]

lemma parseLit_escape (s tail : Str) (h : tail.head? ≠ some '\'') :
    parseLit (escapeFormulaString s ++ '\'' :: tail) = some (s, tail) := by
  induction s with
  | nil =>
    cases tail with
    | nil => simp [escapeFormulaString, parseLit]
    | cons t ts =>
      have ht : ¬(t = '\'') := by
        intro hEq
        exact h (by simp [hEq])
      simp [escapeFormulaString, parseLit, ht]
  | cons c r ih =>
    by_cases hc : c = '\''
    · subst hc
      simp [escapeFormulaString, parseLit, ih]
    · simp only [escapeFormulaString, if_neg hc, List.cons_append]
      rw [parseLit.eq_def]
      simp [hc, ih]

lemma parseEq_roundtrip (s : Str) :
    parseEqFormula (parentFormula (escapeFormulaString s)) = some s := by
  have h2 : parseLit (escapeFormulaString s ++ ['\'']) = some (s, []) := by
    simpa using parseLit_escape s [] (by simp)
  have h4 : parentFormula (escapeFormulaString s)
      = (eqFormulaHead ++ ['\'']) ++ (escapeFormulaString s ++ ['\'']) := by
    simp [parentFormula]
  have h3 : stripHead (eqFormulaHead ++ ['\'']) (parentFormula (escapeFormulaString s))
      = some (escapeFormulaString s ++ ['\'']) := by
    rw [h4, stripHead_append]
  simp [parseEqFormula, h3, h2]

lemma parseIn_roundtrip (s : Str) :
    parseInFormula (childFormula (escapeFormulaString s)) = some s := by
  have h2 : parseLit (escapeFormulaString s ++ '\'' :: childFormulaTail)
      = some (s, childFormulaTail) :=
    parseLit_escape s childFormulaTail (by decide)
  simp [parseInFormula, childFormula, h2]

lemma runParentQuery_escape (st : Store) (s : Str) :
    runParentQuery st (parentFormula (escapeFormulaString s))
      = st.programs.filter (fun r => jsOrEmpty r.programSlug == s) := by
  simp [runParentQuery, parseEq_roundtrip]

lemma childMatches_escape (s : Str) (slugs : List Str) :
    childMatches (childFormula (escapeFormulaString s)) slugs = slugs.contains s := by
  simp [childMatches, parseIn_roundtrip]

lemma dropWhile_head_false (p : Char → Bool) (l res : Str) (a : Char)
    (h : List.dropWhile p l = a :: res) : p a = false := by
  induction l with
  | nil => simp at h
  | cons c cs ih =>
    rw [List.dropWhile_cons] at h
    by_cases hc : p c = true
    · rw [if_pos hc] at h
      exact ih h
    · rw [if_neg hc] at h
      injection h with h1 _
      subst h1
      simpa using hc

lemma dropWhile_jsTrim (l : Str) :
    List.dropWhile isJsWS (jsTrim l) = jsTrim l := by
  unfold jsTrim
  obtain ⟨t, ht⟩ := List.rdropWhile_prefix isJsWS (List.dropWhile isJsWS l)
  cases hr : List.rdropWhile isJsWS (List.dropWhile isJsWS l) with
  | nil => simp
  | cons a s =>
    rw [hr] at ht
    have hd : List.dropWhile isJsWS l = a :: (s ++ t) := by
      rw [← ht]
      simp
    have ha : isJsWS a = false := dropWhile_head_false isJsWS l (s ++ t) a hd
    simp [List.dropWhile_cons, ha]

lemma jsTrim_idem (l : Str) : jsTrim (jsTrim l) = jsTrim l := by
  have h1 : List.dropWhile isJsWS (jsTrim l) = jsTrim l := dropWhile_jsTrim l
  show List.rdropWhile isJsWS (List.dropWhile isJsWS (jsTrim l)) = jsTrim l
  rw [h1]
  show List.rdropWhile isJsWS (List.rdropWhile isJsWS (List.dropWhile isJsWS l)) = jsTrim l
  rw [List.rdropWhile_idempotent]
  rfl

lemma segment_mem (raw p : Str) (h : p ∈ segment raw) :
    p ≠ [] ∧ jsTrim p = p := by
  unfold segment at h
  by_cases hr : raw.isEmpty
  · simp [hr] at h
  · rw [if_neg (by simpa using hr), List.mem_filter] at h
    obtain ⟨hmem, hne⟩ := h
    rw [List.mem_map] at hmem
    obtain ⟨x, _, rfl⟩ := hmem
    refine ⟨?_, jsTrim_idem x⟩
    intro hnil
    rw [hnil] at hne
    simp at hne

lemma jsTrim_allWS (l : Str) (h : ∀ c ∈ l, isJsWS c = true) : jsTrim l = [] := by
  unfold jsTrim
  rw [List.dropWhile_eq_nil_iff.mpr (by simpa using h)]
  simp [List.rdropWhile]

lemma filter_orderedInsert (k : Int) (a : ModRec) (l : List ModRec) :
    (List.orderedInsert modLE a l).filter (fun m => m.sortOrder == k)
      = if a.sortOrder = k
          then a :: l.filter (fun m => m.sortOrder == k)
          else l.filter (fun m => m.sortOrder == k) := by
  induction l with
  | nil =>
    by_cases ha : a.sortOrder = k <;> simp [List.orderedInsert, ha]
  | cons b t ih =>
    by_cases hab : modLE a b
    · by_cases ha : a.sortOrder = k <;>
        simp [List.orderedInsert, hab, ha]
    · have hba : b.sortOrder < a.sortOrder := by
        unfold modLE at hab
        omega
      by_cases ha : a.sortOrder = k
      · have hb : ¬(b.sortOrder = k) := by omega
        simp [List.orderedInsert, hab, ih, ha, hb]
      · by_cases hb : b.sortOrder = k <;>
          simp [List.orderedInsert, hab, ih, ha, hb]

lemma filter_insertionSort (k : Int) (l : List ModRec) :
    (List.insertionSort modLE l).filter (fun m => m.sortOrder == k)
      = l.filter (fun m => m.sortOrder == k) := by
  induction l with
  | nil => simp
  | cons b t ih =>
    by_cases hb : b.sortOrder = k <;>
      simp [List.insertionSort, filter_orderedInsert, hb, ih]

lemma firstAttachmentUrl_noArr (v : AttVal) (h : isArr v = false) :
    firstAttachmentUrl v = none := by
  cases v with
  | undef => simp [firstAttachmentUrl, attFalsy]
  | nullV => simp [firstAttachmentUrl, attFalsy]
  | arr l => simp [isArr] at h
  | prim t => cases t <;> simp [firstAttachmentUrl, attFalsy]

lemma firstAttachmentUrl_noAtt (v : AttVal) (h : hasAttachment v = false) :
    firstAttachmentUrl v = none := by
  cases v with
  | undef => simp [firstAttachmentUrl, attFalsy]
  | nullV => simp [firstAttachmentUrl, attFalsy]
  | arr l =>
    cases l with
    | nil => simp [firstAttachmentUrl, attFalsy]
    | cons a rest => simp [hasAttachment] at h
  | prim t => cases t <;> simp [firstAttachmentUrl, attFalsy]

/-! ### Handler path lemmas -/

lemma handlerAux_config (env : Env) (q : Option Str) (st : Store)
    (h : (falsyEnv env.apiKey || falsyEnv env.baseId) = true) :
    handlerAux env "GET".data q st
      = (Except.ok ⟨500, Body.errorMsg configErrorMsg, false⟩, []) := by
  simp [handlerAux, h]

lemma handlerAux_listing (env : Env) (q : Option Str) (st : Store)
    (hk : falsyEnv env.apiKey = false) (hb : falsyEnv env.baseId = false)
    (hcp : st.fail Table.clinicalPrograms = none)
    (hempty : (jsTrim (q.getD [])).isEmpty = true) :
    handlerAux env "GET".data q st
      = (Except.ok ⟨200, Body.listing (st.programs.map mkListItem), true⟩,
         [Table.clinicalPrograms]) := by
  simp [handlerAux, hk, hb, hcp, hempty]

lemma handlerAux_notFound (env : Env) (q : Option Str) (st : Store)
    (hk : falsyEnv env.apiKey = false) (hb : falsyEnv env.baseId = false)
    (hcp : st.fail Table.clinicalPrograms = none)
    (hne : (jsTrim (q.getD [])).isEmpty = false)
    (hnone : st.programs.filter (fun r => jsOrEmpty r.programSlug == jsTrim (q.getD [])) = []) :
    handlerAux env "GET".data q st
      = (Except.ok ⟨404, Body.errorMsg "Program not found".data, false⟩,
         [Table.clinicalPrograms]) := by
  have h1 : runParentQuery st (parentFormula (escapeFormulaString (jsTrim (q.getD [])))) = [] := by
    rw [runParentQuery_escape]
    exact hnone
  simp [handlerAux, hk, hb, hcp, hne, h1]

lemma handlerAux_detail (env : Env) (q : Option Str) (st : Store) (p : ProgRec)
    (rest : List ProgRec)
    (hk : falsyEnv env.apiKey = false) (hb : falsyEnv env.baseId = false)
    (hcp : st.fail Table.clinicalPrograms = none)
    (hchild : firstChildFail st = none)
    (hne : (jsTrim (q.getD [])).isEmpty = false)
    (hfound : st.programs.filter (fun r => jsOrEmpty r.programSlug == jsTrim (q.getD []))
      = p :: rest) :
    handlerAux env "GET".data q st
      = (Except.ok ⟨200,
          Body.detail (mkDetail st (jsTrim (q.getD []))
            (escapeFormulaString (jsTrim (q.getD []))) p),
          true⟩,
         childTablesTrace) := by
  have h1 : runParentQuery st (parentFormula (escapeFormulaString (jsTrim (q.getD []))))
      = p :: rest := by
    rw [runParentQuery_escape]
    exact hfound
  simp [handlerAux, hk, hb, hcp, hne, h1, hchild]

/-! ### Claims -/

/-- C1: for every client-supplied slug, the value interpolated into the
parent equality formula and into the child membership formula is escaped by
doubling single quotes, and under the doubled-quote string-literal grammar
of the store both formulas read back as exactly one comparison whose literal
value is the original slug, with nothing left over: the slug can neither
terminate the literal early nor inject further filter syntax, whatever
characters (quotes, backslashes, formula specials) it contains.
Consequently the parent query selects exactly the records whose slug field
equals the client-supplied slug. -/
theorem c1_escaping_prevents_injection (slug : Str) :
    parseEqFormula (parentFormula (escapeFormulaString slug)) = some slug ∧
    parseInFormula (childFormula (escapeFormulaString slug)) = some slug ∧
    ∀ st : Store, runParentQuery st (parentFormula (escapeFormulaString slug))
      = st.programs.filter (fun r => jsOrEmpty r.programSlug == slug) :=
  ⟨parseEq_roundtrip slug, parseIn_roundtrip slug, fun st => runParentQuery_escape st slug⟩

/-- C2 as stated is false: the listing select passes a page size of 50 but
fetches all pages, so a store holding 51 program records produces a listing
response with 51 items, more than the claimed cap of 50. -/
theorem c2_caps_counterexample :
    listingCount (handler envOK "GET".data none bigStore) = 51 ∧
    ¬ listingCount (handler envOK "GET".data none bigStore) ≤ 50 := by
  constructor <;> decide

/-- C2 amended: the page sizes (50 for the listing, 100/100/200/100 for the
child fetches) control fetch granularity only and cap nothing; the listing
response holds one item per program record in the store, each child sequence
of the detail response holds one item per matching child record, and only
the parent lookup is capped, at one record. -/
theorem c2_amended_no_caps (env : Env) (q : Option Str) (st : Store)
    (hk : falsyEnv env.apiKey = false) (hb : falsyEnv env.baseId = false)
    (hfail : ∀ t, st.fail t = none) :
    ((jsTrim (q.getD [])).isEmpty = true →
      listingCount (handler env "GET".data q st) = st.programs.length) ∧
    (∀ p rest, (jsTrim (q.getD [])).isEmpty = false →
      st.programs.filter (fun r => jsOrEmpty r.programSlug == jsTrim (q.getD [])) = p :: rest →
      ∃ d, detailOf (handler env "GET".data q st) = some d ∧
        d.modules.length = (st.trainingModules.filter
          (fun m => childMatches (childFormula (escapeFormulaString (jsTrim (q.getD []))))
            m.programSlug)).length ∧
        d.manuals.length = (st.protocolManuals.filter
          (fun m => childMatches (childFormula (escapeFormulaString (jsTrim (q.getD []))))
            m.programSlug)).length ∧
        d.forms.length = (st.documentationForms.filter
          (fun m => childMatches (childFormula (escapeFormulaString (jsTrim (q.getD []))))
            m.programSlug)).length ∧
        d.resources.length = (st.additionalResources.filter
          (fun m => childMatches (childFormula (escapeFormulaString (jsTrim (q.getD []))))
            m.programSlug)).length) ∧
    (∀ f, ((runParentQuery st f).take 1).length ≤ 1) := by
  refine ⟨?_, ?_, ?_⟩
  · intro hempty
    have haux := handlerAux_listing env q st hk hb (hfail _) hempty
    simp [handler, listingCount, haux]
  · intro p rest hne hfound
    have haux := handlerAux_detail env q st p rest hk hb (hfail _)
      (by simp [firstChildFail, hfail]) hne hfound
    refine ⟨mkDetail st (jsTrim (q.getD [])) (escapeFormulaString (jsTrim (q.getD []))) p,
      by simp [handler, detailOf, haux], ?_, ?_, ?_, ?_⟩
    · simp only [mkDetail, moduleRecordsFor, List.length_map]
      exact (List.perm_insertionSort modLE _).length_eq
    · simp [mkDetail, manualRecordsFor]
    · simp [mkDetail, formRecordsFor]
    · simp [mkDetail, resourceRecordsFor]
  · intro f
    rw [List.length_take]
    exact min_le_left _ _

/-- C3: when the slug matches no parent record, the handler responds 404
with an error body, and the trace of store calls holds the single parent
lookup: none of the four child tables is ever queried. -/
theorem c3_not_found_no_child_fetches (env : Env) (q : Option Str) (st : Store)
    (hk : falsyEnv env.apiKey = false) (hb : falsyEnv env.baseId = false)
    (hcp : st.fail Table.clinicalPrograms = none)
    (hne : (jsTrim (q.getD [])).isEmpty = false)
    (hnone : st.programs.filter (fun r => jsOrEmpty r.programSlug == jsTrim (q.getD [])) = []) :
    handler env "GET".data q st = ⟨404, Body.errorMsg "Program not found".data, false⟩ ∧
    handlerTrace env "GET".data q st = [Table.clinicalPrograms] ∧
    ∀ t ∈ handlerTrace env "GET".data q st,
      t ≠ Table.trainingModules ∧ t ≠ Table.protocolManuals ∧
      t ≠ Table.documentationForms ∧ t ≠ Table.additionalResources := by
  have haux := handlerAux_notFound env q st hk hb hcp hne hnone
  refine ⟨by simp [handler, haux], by simp [handlerTrace, haux], ?_⟩
  intro t ht
  simp only [handlerTrace, haux, List.mem_singleton] at ht
  subst ht
  exact ⟨by decide, by decide, by decide, by decide⟩

/-- C4: segmentation of the overview splits on a blank line or a bare
newline, trims each piece and drops empty pieces: the three documented
examples hold (including the single-newline split quirk), and every element
of any segmentation result is non-empty and fixed by trimming. -/
theorem c4_segment_spec :
    segment "".data = [] ∧
    segment "A\n\nB".data = ["A".data, "B".data] ∧
    segment "A\nB".data = ["A".data, "B".data] ∧
    ∀ raw p, p ∈ segment raw → p ≠ [] ∧ jsTrim p = p := by
  refine ⟨by decide, by decide, by decide, ?_⟩
  intro raw p h
  exact segment_mem raw p h

/-- C5: URL resolution prefers the explicit link field whenever it holds a
non-empty string, even when attachments are present; otherwise it yields the
url of the first attachment of a non-empty attachment list (when that url is
a present, non-empty string, the truthiness the code tests); and when
neither source is present it returns undefined (it is a total function, so
it never throws). -/
theorem c5_resolveUrl_spec (link : FieldVal) (file : AttVal) :
    (∀ s, link = FieldVal.str s → s.isEmpty = false → resolveUrl link file = some s) ∧
    (linkNonEmptyStr link = false →
      ∀ a rest u, file = AttVal.arr (a :: rest) → a.url = some u → u.isEmpty = false →
        resolveUrl link file = some u) ∧
    (linkNonEmptyStr link = false → hasAttachment file = false →
      resolveUrl link file = none) := by
  refine ⟨?_, ?_, ?_⟩
  · rintro s rfl hs
    simp [resolveUrl, strOrUndef, jsOrOpt, hs]
  · intro hlink a rest u hfile hurl hu
    subst hfile
    have hfa : firstAttachmentUrl (AttVal.arr (a :: rest)) = some u := by
      simp [firstAttachmentUrl, attFalsy, hurl, hu]
    cases link with
    | absent => simp [resolveUrl, strOrUndef, jsOrOpt, hfa, hu]
    | other => simp [resolveUrl, strOrUndef, jsOrOpt, hfa, hu]
    | str s =>
      have hs : s.isEmpty = true := by
        simpa [linkNonEmptyStr] using hlink
      simp [resolveUrl, strOrUndef, jsOrOpt, hfa, hs, hu]
  · intro hlink hatt
    have hfa := firstAttachmentUrl_noAtt file hatt
    cases link with
    | absent => simp [resolveUrl, strOrUndef, jsOrOpt, hfa]
    | other => simp [resolveUrl, strOrUndef, jsOrOpt, hfa]
    | str s =>
      have hs : s.isEmpty = true := by
        simpa [linkNonEmptyStr] using hlink
      simp [resolveUrl, strOrUndef, jsOrOpt, hfa, hs]

/-- C6: when either credential is absent from the environment, any GET
request (listing or detail alike, whatever the slug parameter) is answered
500 with the configuration-specific message, and the trace of store calls is
empty: no store call is attempted. -/
theorem c6_missing_config (env : Env) (q : Option Str) (st : Store)
    (h : env.apiKey = none ∨ env.baseId = none) :
    handler env "GET".data q st = ⟨500, Body.errorMsg configErrorMsg, false⟩ ∧
    handlerTrace env "GET".data q st = [] := by
  have hfz : (falsyEnv env.apiKey || falsyEnv env.baseId) = true := by
    rcases h with h | h <;> simp [h, falsyEnv]
  have haux := handlerAux_config env q st hfz
  exact ⟨by simp [handler, haux], by simp [handlerTrace, haux]⟩

/-- C7: on a successful detail response, the modules sequence is the image
of the fetched TrainingModules records, which are sorted ascending by
sortOrder, and the sort is stable: for every key, the records carrying that
key appear in exactly their store order. -/
theorem c7_modules_sorted_stable (env : Env) (q : Option Str) (st : Store)
    (p : ProgRec) (rest : List ProgRec)
    (hk : falsyEnv env.apiKey = false) (hb : falsyEnv env.baseId = false)
    (hfail : ∀ t, st.fail t = none)
    (hne : (jsTrim (q.getD [])).isEmpty = false)
    (hfound : st.programs.filter (fun r => jsOrEmpty r.programSlug == jsTrim (q.getD []))
      = p :: rest) :
    ∃ d, detailOf (handler env "GET".data q st) = some d ∧
      d.modules
        = (moduleRecordsFor st (escapeFormulaString (jsTrim (q.getD [])))).map mkModule ∧
      List.Sorted modLE (moduleRecordsFor st (escapeFormulaString (jsTrim (q.getD [])))) ∧
      ∀ k : Int,
        (moduleRecordsFor st (escapeFormulaString (jsTrim (q.getD [])))).filter
            (fun m => m.sortOrder == k)
          = (st.trainingModules.filter
              (fun m => childMatches (childFormula (escapeFormulaString (jsTrim (q.getD []))))
                m.programSlug)).filter
              (fun m => m.sortOrder == k) := by
  have haux := handlerAux_detail env q st p rest hk hb (hfail _)
    (by simp [firstChildFail, hfail]) hne hfound
  refine ⟨mkDetail st (jsTrim (q.getD [])) (escapeFormulaString (jsTrim (q.getD []))) p,
    by simp [handler, detailOf, haux], by simp [mkDetail], ?_, ?_⟩
  · exact List.sorted_insertionSort modLE _
  · intro k
    exact filter_insertionSort k _

/-- C8: whenever any store call fails, the handler responds with the fixed
generic 500 body, and the client-visible response is identical for any two
upstream failures, whatever their messages: nothing of the upstream error
reaches the response. -/
theorem c8_upstream_generic (env1 env2 : Env) (m1 m2 : Str) (q1 q2 : Option Str)
    (st1 st2 : Store) (e1 e2 : Str)
    (h1 : (handlerAux env1 m1 q1 st1).1 = Except.error e1)
    (h2 : (handlerAux env2 m2 q2 st2).1 = Except.error e2) :
    handler env1 m1 q1 st1 = internalErrorResp ∧
    handler env1 m1 q1 st1 = handler env2 m2 q2 st2 := by
  constructor
  · simp [handler, h1]
  · simp [handler, h1, h2]

/-- C9: a slug parameter that is absent, empty, or whitespace-only is
trimmed to the empty string, so the handler takes the listing path: it
answers 200 with the items array built from every program record, queries
only the parent table, and never answers 404. -/
theorem c9_blank_slug_listing (env : Env) (q : Option Str) (st : Store)
    (hk : falsyEnv env.apiKey = false) (hb : falsyEnv env.baseId = false)
    (hcp : st.fail Table.clinicalPrograms = none)
    (hq : q = none ∨ q = some [] ∨ ∀ c ∈ q.getD [], isJsWS c = true) :
    handler env "GET".data q st
      = ⟨200, Body.listing (st.programs.map mkListItem), true⟩ ∧
    handlerTrace env "GET".data q st = [Table.clinicalPrograms] ∧
    (handler env "GET".data q st).status ≠ 404 := by
  have hall : ∀ c ∈ q.getD [], isJsWS c = true := by
    rcases hq with rfl | rfl | hq
    · simp
    · simp
    · exact hq
  have hempty : (jsTrim (q.getD [])).isEmpty = true := by
    simp [jsTrim_allWS _ hall]
  have haux := handlerAux_listing env q st hk hb hcp hempty
  refine ⟨by simp [handler, haux], by simp [handlerTrace, haux], ?_⟩
  simp [handler, haux]

/-- C10: when the attachment list is non-empty but its first element lacks a
truthy url, resolution yields undefined even if later elements carry urls;
and on any non-array attachment value it yields undefined (totally, without
throwing). -/
theorem c10_first_attachment_corners (a : Attachment) (rest : List Attachment) (v : AttVal) :
    (truthyUrl a.url = false → firstAttachmentUrl (AttVal.arr (a :: rest)) = none) ∧
    (isArr v = false → firstAttachmentUrl v = none) := by
  constructor
  · intro h
    cases hu : a.url with
    | none => simp [firstAttachmentUrl, attFalsy, hu]
    | some u =>
      have hu2 : u.isEmpty = true := by
        simpa [truthyUrl, hu] using h
      simp [firstAttachmentUrl, attFalsy, hu, hu2]
  · exact firstAttachmentUrl_noArr v

/-! ### Witnesses -/

/-- Witness for C2 amended, on the 51-record store. -/
theorem c2_amended_no_caps_witness :
    listingCount (handler envOK "GET".data none bigStore) = bigStore.programs.length :=
  (c2_amended_no_caps envOK none bigStore (by decide) (by decide) (fun _ => rfl)).1 (by decide)

/-- Witness for C3 on an empty store and slug z. -/
theorem c3_not_found_no_child_fetches_witness :
    handler envOK "GET".data (some ['z']) storeEmpty
        = ⟨404, Body.errorMsg "Program not found".data, false⟩ ∧
    handlerTrace envOK "GET".data (some ['z']) storeEmpty = [Table.clinicalPrograms] ∧
    ∀ t ∈ handlerTrace envOK "GET".data (some ['z']) storeEmpty,
      t ≠ Table.trainingModules ∧ t ≠ Table.protocolManuals ∧
      t ≠ Table.documentationForms ∧ t ≠ Table.additionalResources :=
  c3_not_found_no_child_fetches envOK (some ['z']) storeEmpty (by decide) (by decide) rfl
    (by decide) (by decide)

/-- Witness for C4 on the single-newline example. -/
theorem c4_segment_spec_witness :
    "A".data ≠ [] ∧ jsTrim "A".data = "A".data :=
  c4_segment_spec.2.2.2 "A\nB".data "A".data (by decide)

/-- Witness for C5: the explicit link wins over a present attachment. -/
theorem c5_resolveUrl_spec_witness :
    resolveUrl (FieldVal.str ['x']) (AttVal.arr [⟨some ['y']⟩]) = some ['x'] :=
  (c5_resolveUrl_spec (FieldVal.str ['x']) (AttVal.arr [⟨some ['y']⟩])).1 ['x'] rfl (by decide)

/-- Witness for C6 with a missing access key. -/
theorem c6_missing_config_witness :
    handler ⟨none, some ['b']⟩ "GET".data (some ['z']) storeEmpty
        = ⟨500, Body.errorMsg configErrorMsg, false⟩ ∧
    handlerTrace ⟨none, some ['b']⟩ "GET".data (some ['z']) storeEmpty = [] :=
  c6_missing_config ⟨none, some ['b']⟩ (some ['z']) storeEmpty (Or.inl rfl)

/-- Witness for C7 on a store whose modules tie on sortOrder. -/
theorem c7_modules_sorted_stable_witness :
    List.Sorted modLE (moduleRecordsFor storeP (escapeFormulaString (jsTrim ((some ['p']).getD [])))) := by
  obtain ⟨d, -, -, hsorted, -⟩ :=
    c7_modules_sorted_stable envOK (some ['p']) storeP progP [] (by decide) (by decide)
      (fun _ => rfl) (by decide) (by decide)
  exact hsorted

/-- Witness for C8 on two stores failing with different messages. -/
theorem c8_upstream_generic_witness :
    handler envOK "GET".data none failStoreA = internalErrorResp ∧
    handler envOK "GET".data none failStoreA = handler envOK "GET".data none failStoreB :=
  c8_upstream_generic envOK envOK "GET".data "GET".data none none failStoreA failStoreB
    ['x'] ['y'] rfl rfl

/-- Witness for C9 on a whitespace-only slug parameter. -/
theorem c9_blank_slug_listing_witness :
    handler envOK "GET".data (some [' ', '\t']) storeEmpty
      = ⟨200, Body.listing (storeEmpty.programs.map mkListItem), true⟩ ∧
    handlerTrace envOK "GET".data (some [' ', '\t']) storeEmpty = [Table.clinicalPrograms] ∧
    (handler envOK "GET".data (some [' ', '\t']) storeEmpty).status ≠ 404 :=
  c9_blank_slug_listing envOK (some [' ', '\t']) storeEmpty (by decide) (by decide) rfl
    (Or.inr (Or.inr (by decide)))

/-- Witness for C10: first attachment with an empty url hides a later url;
a non-array value resolves to none. -/
theorem c10_first_attachment_corners_witness :
    firstAttachmentUrl (AttVal.arr [⟨some []⟩, ⟨some ['u']⟩]) = none ∧
    firstAttachmentUrl (AttVal.prim true) = none :=
  ⟨(c10_first_attachment_corners ⟨some []⟩ [⟨some ['u']⟩] (AttVal.prim true)).1 (by decide),
   (c10_first_attachment_corners ⟨some []⟩ [⟨some ['u']⟩] (AttVal.prim true)).2 (by decide)⟩

end Crxq
